import Mathlib

/-!
# Verification of the Web Security Analyzer & Summarizer crawler core

A shallow embedding of `web_security_analyzer_app.py`: the URL normalizer
(`_requote`, which is `requests.utils.requote_uri`), the artifact identity
(`FileArtifact.hash`, a truncated SHA-1 hex digest), the static asset crawler
(`fetch_static`), the traffic interceptor (`capture_api`), the session
artifact list, and the summary adapter (`short_summary`).

Python strings are modelled as `List Char` / `String` (Unicode scalar
values), bytes as `List Nat` with values `< 256`, raised exceptions as
`Except`, and the external collaborators (HTTP session, HTML parser,
browser, Ollama client) as explicit function parameters.
-/

set_option autoImplicit false
set_option maxRecDepth 8192

namespace WebSec

/-! ## Characters and byte-level helpers -/

/-- The apostrophe character `'`, written via its code point. -/
def apos : Char := Char.ofNat 39

/-- `requests.utils.UNRESERVED_SET`: ASCII alphanumerics plus `-._~`. -/
def isUnres (c : Char) : Bool :=
  c.isAlpha || c.isDigit || c = '-' || c = '.' || c = '_' || c = '~'

/-- `safe_with_percent = "!#$%&'()*+,/:;=?@[]~"` from `requote_uri`. -/
def safeWithPercent : List Char :=
  "!#$%&".toList ++ [apos] ++ "()*+,/:;=?@[]~".toList

/-- `safe_without_percent = "!#$&'()*+,/:;=?@[]~"` from `requote_uri`. -/
def safeWithoutPercent : List Char :=
  "!#$&".toList ++ [apos] ++ "()*+,/:;=?@[]~".toList

/-- Uppercase hexadecimal digit for `n < 16`, as produced by
`urllib.parse.quote`'s `%XX` escapes. -/
def hexUpper (n : Nat) : Char :=
  if n < 10 then Char.ofNat (48 + n) else Char.ofNat (55 + n)

/-- The `%XX` escape of one byte. -/
def pctEncodeByte (b : Nat) : List Char :=
  ['%', hexUpper (b / 16), hexUpper (b % 16)]

/-- UTF-8 encoding of one Unicode scalar value (Python `str.encode()`
byte layout). -/
def utf8Bytes (c : Char) : List Nat :=
  let v := c.toNat
  if v < 0x80 then [v]
  else if v < 0x800 then [0xC0 + v / 64, 0x80 + v % 64]
  else if v < 0x10000 then
    [0xE0 + v / 4096, 0x80 + (v / 64) % 64, 0x80 + v % 64]
  else
    [0xF0 + v / 262144, 0x80 + (v / 4096) % 64, 0x80 + (v / 64) % 64,
     0x80 + v % 64]

/-- UTF-8 encoding of a whole string (Python `str.encode("utf-8")`). -/
def utf8Encode (s : String) : List Nat := s.data.flatMap utf8Bytes

/-- Python `s[:n]` (kernel-reducible string truncation). -/
def strTake (s : String) (n : Nat) : String := ⟨s.data.take n⟩

/-- Does the second list start the first? -/
def startsWithL : List Char → List Char → Bool
  | _, [] => true
  | [], _ :: _ => false
  | a :: as, b :: bs => a == b && startsWithL as bs

/-- Python `s.startswith(pre)` (kernel-reducible). -/
def strStarts (s pre : String) : Bool := startsWithL s.data pre.data

/-- Python substring containment `needle in hay`. -/
def containsSub (needle : List Char) : List Char → Bool
  | [] => startsWithL [] needle
  | c :: t => startsWithL (c :: t) needle || containsSub needle t

/-- Python `needle in hay` on strings. -/
def strContains (hay needle : String) : Bool := containsSub needle.data hay.data

/-- Python `s.split(sep)` for a one-character separator: the list of
separator-free parts (one more part than separator occurrences). -/
def splitChar (sep : Char) : List Char → List (List Char)
  | [] => [[]]
  | c :: rest =>
    match splitChar sep rest with
    | [] => [[c]]
    | p :: ps => if c = sep then [] :: p :: ps else (c :: p) :: ps

/-! ## URL normalizer: `requests.utils.requote_uri`

`_requote(url) = requests.utils.requote_uri(url)`.  The model follows the
`requests` source: `unquote_unreserved` splits on `%` and un-escapes only
escapes of unreserved characters, raising `InvalidURL` on an alphanumeric
but non-hexadecimal escape; `requote_uri` then re-quotes, falling back to
quoting with `%` unsafe when `InvalidURL` was raised. -/

/-- `urllib.parse.quote` keep-condition: the char is in `_ALWAYS_SAFE`
(ASCII alphanumerics and `_.-~`, i.e. exactly the unreserved set) or in the
caller's `safe` string. -/
def quoteKeeps (safe : List Char) (c : Char) : Bool :=
  isUnres c || safe.contains c

/-- `urllib.parse.quote` on one character: kept verbatim when safe,
otherwise each UTF-8 byte becomes `%XX`. -/
def quoteChar (safe : List Char) (c : Char) : List Char :=
  if quoteKeeps safe c then [c] else (utf8Bytes c).flatMap pctEncodeByte

/-- `urllib.parse.quote(s, safe)` for an ASCII `safe` set. -/
def pyQuote (safe : List Char) (s : List Char) : List Char :=
  s.flatMap (quoteChar safe)

/-- Python `uri.split('%')`. -/
def splitPercent (l : List Char) : List (List Char) := splitChar '%' l

/-- ASCII hexadecimal digit test (`int(h, 16)` succeeding; the development
only evaluates it on ASCII input). -/
def isHexDig (c : Char) : Bool :=
  c.isDigit || ('A' ≤ c && c ≤ 'F') || ('a' ≤ c && c ≤ 'f')

/-- Value of an ASCII hexadecimal digit. -/
def hexVal (c : Char) : Nat :=
  if c.isDigit then c.toNat - 48
  else if 'A' ≤ c && c ≤ 'F' then c.toNat - 55
  else c.toNat - 87

/-- Python `str.isalnum` on one character, restricted to ASCII (the
development only evaluates it on ASCII input). -/
def isAlnumA (c : Char) : Bool := c.isAlpha || c.isDigit

/-- One part of `unquote_unreserved`'s loop body: `h = parts[i][0:2]`;
a 2-char alphanumeric `h` is decoded if hexadecimal (kept escaped unless
the decoded char is unreserved) and raises `InvalidURL` otherwise; any
other part keeps its `%` prefix. -/
def processPart (p : List Char) : Except (List Char) (List Char) :=
  match p with
  | c1 :: c2 :: rest =>
    if isAlnumA c1 && isAlnumA c2 then
      if isHexDig c1 && isHexDig c2 then
        let ch := Char.ofNat (hexVal c1 * 16 + hexVal c2)
        if isUnres ch then .ok (ch :: rest) else .ok ('%' :: p)
      else .error [c1, c2]
    else .ok ('%' :: p)
  | _ => .ok ('%' :: p)

/-- The loop of `unquote_unreserved` over `parts[1:]`, stopping at the
first invalid escape (where Python raises). -/
def mapParts : List (List Char) → Except (List Char) (List (List Char))
  | [] => .ok []
  | p :: ps =>
    match processPart p with
    | .error e => .error e
    | .ok q =>
      match mapParts ps with
      | .error e => .error e
      | .ok qs => .ok (q :: qs)

/-- `requests.utils.unquote_unreserved`; `Except.error` models the raised
`InvalidURL`. -/
def unquoteUnreserved (u : List Char) : Except (List Char) (List Char) :=
  match splitPercent u with
  | [] => .ok u
  | p0 :: ps =>
    match mapParts ps with
    | .error e => .error e
    | .ok qs => .ok (p0 ++ qs.flatten)

/-- `requests.utils.requote_uri`: quote the unreserved-unquoted URI with
`%` safe; on `InvalidURL` fall back to quoting the raw input with `%`
unsafe. -/
def requoteUri (u : List Char) : List Char :=
  match unquoteUnreserved u with
  | .ok s => pyQuote safeWithPercent s
  | .error _ => pyQuote safeWithoutPercent u

/-- `_requote(url) -> str` (source line 69-70): `requote_uri` on a Python
`str`. -/
def _requote (s : String) : String := ⟨requoteUri s.data⟩

/-! ## URL resolution: `urllib.parse.urljoin`

Modelled from CPython's `urllib.parse.urljoin` for hierarchical (http-like)
base URLs: scheme recognition, authority split, relative-reference merge and
dot-segment resolution, and `urlunsplit` re-assembly.  Simplifications,
each only affecting inputs no theorem instantiates: the scheme comparison is
case-sensitive (all schemes used here are lowercase), and the query/fragment
of a reference is folded into its path (no reference used here carries a
bare `?query` or dot-segments after `?`). -/

/-- RFC 3986 scheme characters as accepted by `urllib.parse.urlsplit`. -/
def isSchemeChar (c : Char) : Bool :=
  c.isAlpha || c.isDigit || c = '+' || c = '-' || c = '.'

/-- Split `scheme:rest` when the text before the first `:` is a valid
scheme (first char alphabetic, all scheme chars); otherwise `none`. -/
def splitScheme (u : String) : Option (String × String) :=
  let pre := u.data.takeWhile (fun c => c != ':')
  if pre.length = u.data.length then none
  else
    match pre with
    | [] => none
    | c :: _ =>
      if c.isAlpha && pre.all isSchemeChar then
        some (⟨pre⟩, ⟨u.data.drop (pre.length + 1)⟩)
      else none

/-- Split the part after `scheme:` into `(netloc, path)`:
a `//`-led authority runs to the next `/`, `?` or `#`. -/
def splitNetloc (rest : String) : String × String :=
  if strStarts rest "//" then
    let after := rest.data.drop 2
    let netloc := after.takeWhile (fun c => c != '/' && c != '?' && c != '#')
    (⟨netloc⟩, ⟨after.drop netloc.length⟩)
  else ("", rest)

/-- CPython's dot-segment resolution loop in `urljoin`: `..` pops
(ignoring underflow), `.` is dropped, and a trailing `.`/`..` leaves a
trailing empty segment. -/
def resolveDotSegs (segs : List (List Char)) : List (List Char) :=
  let resolved := segs.foldl
    (fun acc s =>
      if s = ['.', '.'] then acc.dropLast
      else if s = ['.'] then acc
      else acc ++ [s]) []
  match segs.getLast? with
  | some s => if s = ['.'] ∨ s = ['.', '.'] then resolved ++ [[]] else resolved
  | none => resolved

/-- `urllib.parse.urlunsplit` restricted to scheme, netloc and path. -/
def urlunsplitSN (sch netloc path : String) : String :=
  if netloc = "" then sch ++ ":" ++ path
  else
    sch ++ "://" ++ netloc ++
      (if path = "" ∨ strStarts path "/" then path else "/" ++ path)

/-- Resolve a same-scheme or scheme-less reference `ref` against the base
whose scheme is `bsch` and scheme-tail is `brest`. -/
def resolveRel (bsch brest ref : String) : String :=
  if strStarts ref "//" then bsch ++ ":" ++ ref
  else
    let nb := splitNetloc brest
    if ref = "" then urlunsplitSN bsch nb.1 nb.2
    else
      let segs :=
        if strStarts ref "/" then splitChar '/' ref.data
        else (splitChar '/' nb.2.data).dropLast ++ splitChar '/' ref.data
      let path : String := ⟨List.intercalate ['/'] (resolveDotSegs segs)⟩
      urlunsplitSN bsch nb.1 (if path = "" then "/" else path)

/-- A URL is absolute when it carries a scheme. -/
def hasScheme (u : String) : Bool := (splitScheme u).isSome

/-- `urllib.parse.urljoin(base, url)`. -/
def urljoin (base url : String) : String :=
  match splitScheme base with
  | none => url
  | some (bsch, brest) =>
    if url = "" then base
    else
      match splitScheme url with
      | some (sch, rest) =>
        if sch ≠ bsch then url else resolveRel bsch brest rest
      | none => resolveRel bsch brest url

/-! ## Artifact identity: `hashlib.sha1(...).hexdigest()`

`FileArtifact.hash` (source lines 58-59) returns
`hashlib.sha1(self.path.read_bytes()).hexdigest()[:10]`.  SHA-1 is modelled
in full (FIPS 180), on byte lists, with 32-bit words as `Nat % 2^32`. -/

/-- Rotate a 32-bit word (`k < 2^32`) left by `n`. -/
def rotl (n k : Nat) : Nat := ((k <<< n) % 2 ^ 32) ||| (k >>> (32 - n))

/-- Big-endian 8-byte encoding of the 64-bit message bit length. -/
def be8 (n : Nat) : List Nat :=
  [n / 2 ^ 56 % 256, n / 2 ^ 48 % 256, n / 2 ^ 40 % 256, n / 2 ^ 32 % 256,
   n / 2 ^ 24 % 256, n / 2 ^ 16 % 256, n / 2 ^ 8 % 256, n % 256]

/-- SHA-1 padding: `0x80`, zeros to 56 mod 64, then the bit length. -/
def sha1pad (ms : List Nat) : List Nat :=
  ms ++ [0x80] ++ List.replicate ((119 - ms.length % 64) % 64) 0
     ++ be8 (8 * ms.length)

/-- Split a byte list into 64-byte chunks (structural recursion on a fuel
bound so the definition reduces by `rfl`). -/
def chunks64Aux : Nat → List Nat → List (List Nat)
  | 0, _ => []
  | _, [] => []
  | fuel + 1, l => l.take 64 :: chunks64Aux fuel (l.drop 64)

/-- Split a byte list into 64-byte chunks. -/
def chunks64 (l : List Nat) : List (List Nat) := chunks64Aux l.length l

/-- Big-endian 32-bit words of a 64-byte chunk. -/
def toWords : List Nat → List Nat
  | b0 :: b1 :: b2 :: b3 :: rest =>
    (((b0 * 256 + b1) * 256 + b2) * 256 + b3) :: toWords rest
  | _ => []

/-- Extend the 16 words of a chunk to the 80-word message schedule. -/
def extendWords (ws : List Nat) : List Nat :=
  (List.range 64).foldl (fun ws _ =>
    let n := ws.length
    ws ++ [rotl 1 ((ws.getD (n - 3) 0 ^^^ ws.getD (n - 8) 0) ^^^
                   (ws.getD (n - 14) 0 ^^^ ws.getD (n - 16) 0))]) ws

/-- The SHA-1 round function (Python `~b` on a 32-bit word is
`b ^^^ 0xFFFFFFFF`). -/
def sha1f (t b c d : Nat) : Nat :=
  if t < 20 then (b &&& c) ||| ((b ^^^ 0xFFFFFFFF) &&& d)
  else if t < 40 then b ^^^ c ^^^ d
  else if t < 60 then (b &&& c) ||| (b &&& d) ||| (c &&& d)
  else b ^^^ c ^^^ d

/-- The SHA-1 round constants. -/
def sha1k (t : Nat) : Nat :=
  if t < 20 then 0x5A827999
  else if t < 40 then 0x6ED9EBA1
  else if t < 60 then 0x8F1BBCDC
  else 0xCA62C1D6

/-- The five 32-bit SHA-1 chaining words. -/
structure Sha1State where
  h0 : Nat
  h1 : Nat
  h2 : Nat
  h3 : Nat
  h4 : Nat

/-- Compress one 64-byte chunk into the chaining state. -/
def sha1Block (st : Sha1State) (block : List Nat) : Sha1State :=
  let w := extendWords (toWords block)
  let fin := (List.range 80).foldl
    (fun (acc : Nat × Nat × Nat × Nat × Nat) t =>
      let (a, b, c, d, e) := acc
      let tmp := (rotl 5 a + sha1f t b c d + e + sha1k t + w.getD t 0) % 2 ^ 32
      (tmp, a, rotl 30 b, c, d))
    (st.h0, st.h1, st.h2, st.h3, st.h4)
  ⟨(st.h0 + fin.1) % 2 ^ 32, (st.h1 + fin.2.1) % 2 ^ 32,
   (st.h2 + fin.2.2.1) % 2 ^ 32, (st.h3 + fin.2.2.2.1) % 2 ^ 32,
   (st.h4 + fin.2.2.2.2) % 2 ^ 32⟩

/-- The SHA-1 initialization vector. -/
def sha1Init : Sha1State :=
  ⟨0x67452301, 0xEFCDAB89, 0x98BADCFE, 0x10325476, 0xC3D2E1F0⟩

/-- SHA-1 of a byte list: pad, chunk, fold the compression. -/
def sha1 (msg : List Nat) : Sha1State :=
  (chunks64 (sha1pad msg)).foldl sha1Block sha1Init

/-- Lowercase hexadecimal digit, as in `hexdigest()`. -/
def hexLower (n : Nat) : Char :=
  if n < 10 then Char.ofNat (48 + n) else Char.ofNat (87 + n)

/-- Eight lowercase hex digits of a 32-bit word. -/
def hex8 (w : Nat) : List Char :=
  [hexLower (w / 16 ^ 7 % 16), hexLower (w / 16 ^ 6 % 16),
   hexLower (w / 16 ^ 5 % 16), hexLower (w / 16 ^ 4 % 16),
   hexLower (w / 16 ^ 3 % 16), hexLower (w / 16 ^ 2 % 16),
   hexLower (w / 16 % 16), hexLower (w % 16)]

/-- `hashlib.sha1(msg).hexdigest()`: 40 lowercase hex characters. -/
def sha1hex (msg : List Nat) : String :=
  let s := sha1 msg
  ⟨hex8 s.h0 ++ hex8 s.h1 ++ hex8 s.h2 ++ hex8 s.h3 ++ hex8 s.h4⟩

/-- `hashlib.sha1(s.encode()).hexdigest()` for a Python `str`. -/
def sha1hexOfString (s : String) : String := sha1hex (utf8Encode s)

/-! ## Data model: `FileArtifact` and the session artifact list -/

/-- The `content` slot of a `FileArtifact`: Python `str | bytes`. -/
inductive Payload where
  | text (s : String)
  | bytes (b : List Nat)
deriving DecidableEq

/-- The `FileArtifact` dataclass (source lines 49-59). `path` is the local
storage location (modelled by its name), `type` the artifact kind, `url`
the origin (None for uploads). -/
structure FileArtifact where
  path : String
  type : String
  url : Option String
  content : Option Payload
  summary : Option String := none
  details : Option String := none
deriving DecidableEq

/-- `FileArtifact.hash(self)`: SHA-1 hex digest of the stored bytes,
truncated to 10 characters.  The filesystem is modelled as a map from
paths to byte lists (`self.path.read_bytes()`). -/
def FileArtifact.hash (fs : String → List Nat) (a : FileArtifact) : String :=
  strTake (sha1hex (fs a.path)) 10

/-- The session artifact collection `st.session_state.arts`:
a plain Python list. -/
abbrev Collection := List FileArtifact

/-- `st.session_state.arts.append(a)` — how every artifact enters the
collection (uploads at line 188; crawls via `extend`, lines 197-198). -/
def collAdd (c : Collection) (a : FileArtifact) : Collection := c ++ [a]

/-- Iteration over the collection (lines 203, 215): the list itself,
in insertion order. -/
def collAll (c : Collection) : List FileArtifact := c

/-- `st.session_state.arts.extend(l)` = repeated `append`. -/
def collExtend (c : Collection) (l : List FileArtifact) : Collection :=
  l.foldl collAdd c

/-! ## Static asset crawler: `fetch_static` (source lines 73-101)

The HTTP collaborator (`requests.Session.get` with the call's timeout and
redirect flags) is a function from URL to response; `Except.error` models a
raised `requests` exception.  `BeautifulSoup(html, parse_only=
SoupStrainer(["script","link"]))` is the `parse` collaborator, yielding the
document's tags; on-disk writes are modelled by the artifact's stored
`path`/`content` fields. -/

/-- An HTTP response: `status_code`, decoded `text`, raw `content`. -/
structure HResp where
  status : Nat
  text : String
  content : List Nat
deriving DecidableEq

/-- The HTTP collaborator. -/
def HttpClient := String → Except String HResp

/-- `Response.raise_for_status()` raises exactly for status 400-599. -/
def badStatus (s : Nat) : Bool := 400 ≤ s && s < 600

/-- A parsed HTML tag as BeautifulSoup exposes it: `tag.name`,
`tag.get("src")`, `tag.get("rel")` (a list), `tag.get("href")`. -/
structure Tag where
  name : String
  src : Option String
  rel : Option (List String)
  href : Option String

/-- Python truthiness of `tag.get(attr)`: present and non-empty. -/
def truthyS : Option String → Bool
  | none => false
  | some s => s != ""

/-- Python truthiness of a list-valued attribute. -/
def truthyL : Option (List String) → Bool
  | none => false
  | some l => !l.isEmpty

/-- The tag scan of `fetch_static`'s loop body (lines 84-90): a `<script>`
with truthy `src` is a `js` reference, a `<link>` with truthy `rel`
containing `"stylesheet"` and truthy `href` is a `css` reference; anything
else is skipped. -/
def assetOf (t : Tag) : Option (String × String) :=
  if t.name = "script" ∧ truthyS t.src then some (t.src.getD "", "js")
  else if t.name = "link" ∧ truthyL t.rel ∧
          "stylesheet" ∈ t.rel.getD [] ∧ truthyS t.href then
    some (t.href.getD "", "css")
  else none

/-- Sub-asset storage name (line 94): truncated SHA-1 of the resolved URL
plus an extension from the kind. -/
def assetPath (full ftype : String) : String :=
  strTake (sha1hexOfString full) 10 ++ "." ++ ftype

/-- The artifact stored for a successfully fetched text sub-asset
(line 96). -/
def textAsset (full ftype text : String) : FileArtifact :=
  ⟨assetPath full ftype, ftype, some full, some (.text text), none, none⟩

/-- One iteration of `fetch_static`'s per-reference loop (lines 91-100):
resolve, normalize, GET inside `try`; `raise_for_status`; store text for
`js`/`css`/`html` kinds, raw bytes otherwise.  `none` models the caught
exception (the `st.warning` branch: artifact skipped). -/
def fetchAsset (sess : HttpClient) (base : String) (p : String × String) :
    Option FileArtifact :=
  let full := _requote (urljoin base p.1)
  match sess full with
  | .error _ => none
  | .ok r =>
    if badStatus r.status then none
    else if p.2 = "js" ∨ p.2 = "css" ∨ p.2 = "html" then
      some (textAsset full p.2 r.text)
    else
      some ⟨assetPath full p.2, p.2, some full, some (.bytes r.content),
            none, none⟩

/-- The root artifact (lines 78-80): `index.html`, kind `html`,
origin `base`, content the fetched document. -/
def rootArtifact (base html : String) : FileArtifact :=
  ⟨"index.html", "html", some base, some (.text html), none, none⟩

/-- `fetch_static(base, sess, tmp)` (lines 73-101).  The root GET and its
`raise_for_status` propagate failure (`Except.error`); each reference is
then fetched with per-item failures skipped. -/
def fetch_static (base : String) (sess : HttpClient)
    (parse : String → List Tag) : Except String (List FileArtifact) :=
  match sess (_requote base) with
  | .error e => .error e
  | .ok rootR =>
    if badStatus rootR.status then .error "HTTPError"
    else
      .ok (rootArtifact base rootR.text ::
        ((parse rootR.text).filterMap assetOf).filterMap (fetchAsset sess base))

/-! ## Traffic interceptor: `capture_api` (source lines 104-125) -/

/-- A captured response as selenium-wire exposes it: headers and raw body
bytes (`none` models an absent body attribute, hitting the bare
`except`). -/
structure WireResponse where
  headers : List (String × String)
  body : Option (List Nat)
deriving DecidableEq

/-- A captured exchange from `drv.requests`. `headersStr` is the printed
form of the request headers interpolated into the dump. -/
structure WireRequest where
  url : String
  method : String
  headersStr : String
  body : Option String
  response : Option WireResponse
deriving DecidableEq

/-- `headers.get(key, default)` on the captured response headers. -/
def headerGet (hs : List (String × String)) (k d : String) : String :=
  match hs.find? (fun kv => decide (kv.1 = k)) with
  | some kv => kv.2
  | none => d

/-- The content-type filter (line 113): keep an exchange iff its declared
content type contains one of the three accepted media types. -/
def ctAccepted (ct : String) : Bool :=
  strContains ct "application/json" || strContains ct "text/plain" ||
  strContains ct "application/xml"

/-- U+FFFD, the replacement character. -/
def replChar : Char := Char.ofNat 0xFFFD

/-- A UTF-8 continuation byte. -/
def isCont (b : Nat) : Bool := 0x80 ≤ b && b ≤ 0xBF

/-- Worker for `utf8DecodeReplace`, structurally recursive on a fuel bound
(≥ the list length) so it reduces by `rfl`. -/
def utf8DecodeAux : Nat → List Nat → List Char
  | 0, _ => []
  | _, [] => []
  | fuel + 1, b :: rest =>
    if b ≤ 0x7F then Char.ofNat b :: utf8DecodeAux fuel rest
    else if 0xC2 ≤ b && b ≤ 0xDF then
      match rest with
      | b2 :: rest2 =>
        if isCont b2 then
          Char.ofNat ((b - 0xC0) * 64 + (b2 - 0x80)) :: utf8DecodeAux fuel rest2
        else replChar :: utf8DecodeAux fuel rest
      | [] => [replChar]
    else if 0xE0 ≤ b && b ≤ 0xEF then
      match rest with
      | b2 :: rest2 =>
        if (if b = 0xE0 then 0xA0 else 0x80) ≤ b2 &&
           b2 ≤ (if b = 0xED then 0x9F else 0xBF) then
          match rest2 with
          | b3 :: rest3 =>
            if isCont b3 then
              Char.ofNat (((b - 0xE0) * 64 + (b2 - 0x80)) * 64 + (b3 - 0x80))
                :: utf8DecodeAux fuel rest3
            else replChar :: utf8DecodeAux fuel rest2
          | [] => [replChar]
        else replChar :: utf8DecodeAux fuel rest
      | [] => [replChar]
    else if 0xF0 ≤ b && b ≤ 0xF4 then
      match rest with
      | b2 :: rest2 =>
        if (if b = 0xF0 then 0x90 else 0x80) ≤ b2 &&
           b2 ≤ (if b = 0xF4 then 0x8F else 0xBF) then
          match rest2 with
          | b3 :: rest3 =>
            if isCont b3 then
              match rest3 with
              | b4 :: rest4 =>
                if isCont b4 then
                  Char.ofNat ((((b - 0xF0) * 64 + (b2 - 0x80)) * 64 +
                    (b3 - 0x80)) * 64 + (b4 - 0x80)) :: utf8DecodeAux fuel rest4
                else replChar :: utf8DecodeAux fuel rest3
              | [] => [replChar]
            else replChar :: utf8DecodeAux fuel rest2
          | [] => [replChar]
        else replChar :: utf8DecodeAux fuel rest
      | [] => [replChar]
    else replChar :: utf8DecodeAux fuel rest

/-- `bytes.decode("utf-8", errors="replace")`: well-formed sequences
decode, each maximal invalid subpart becomes one U+FFFD. -/
def utf8DecodeReplace (l : List Nat) : List Char := utf8DecodeAux l.length l

/-- Request-dump storage name (line 117). -/
def reqPath (url : String) : String :=
  "api_req_" ++ strTake (sha1hexOfString url) 8 ++ ".txt"

/-- Response-body storage name (line 120). -/
def resPath (url : String) : String :=
  "api_res_" ++ strTake (sha1hexOfString url) 8 ++ ".txt"

/-- The request dump written at line 118:
`f"{rq.method} {rq.url}\n\n{rq.headers}\n\n{rq.body or ''}"`. -/
def reqDump (rq : WireRequest) : String :=
  rq.method ++ " " ++ rq.url ++ "\n\n" ++ rq.headersStr ++ "\n\n" ++
    rq.body.getD ""

/-- The decoded response body of lines 115-116: `body.decode("utf-8",
errors="replace")`, with the bare `except` yielding the sentinel when the
body attribute is absent. -/
def respBody (resp : WireResponse) : String :=
  match resp.body with
  | none => "<binary payload>"
  | some bs => ⟨utf8DecodeReplace bs⟩

/-- The artifacts `capture_api`'s loop emits for one observed exchange
(lines 110-122): none without a response or with a non-matching
content-type; otherwise an `api_request` and an `api_response` artifact,
both with the exchange URL as origin. -/
def perRequest (rq : WireRequest) : List FileArtifact :=
  match rq.response with
  | none => []
  | some resp =>
    if ctAccepted (headerGet resp.headers "Content-Type" "") then
      [⟨reqPath rq.url, "api_request", some rq.url, some (.text (reqDump rq)),
        none, none⟩,
       ⟨resPath rq.url, "api_response", some rq.url, some (.text (respBody resp)),
        none, none⟩]
    else []

/-- The full loop over `drv.requests`. -/
def captureArtifacts (reqs : List WireRequest) : List FileArtifact :=
  reqs.flatMap perRequest

/-- The browser session after `webdriver.Chrome(options=opts)` returned:
the outcome of `drv.set_page_load_timeout(40)` (issued before the `try`),
the outcome of `drv.get`/`implicitly_wait` (inside the `try`), and the
exchanges `drv.requests` exposes. -/
structure Browser where
  configured : Except String Unit
  navigation : Except String Unit
  requests : List WireRequest

/-- `capture_api(base, tmp)` (lines 104-125), instrumented with whether
`drv.quit()` ran.  `acquire` models `webdriver.Chrome(options=opts)`
raising or returning a session.  A configuration failure happens before
the `try`, so the `finally` (and `drv.quit()`) is skipped; a navigation
failure propagates through the `finally`, which runs `drv.quit()`. -/
def capture_api (acquire : Except String Browser) :
    Except String (List FileArtifact) × Bool :=
  match acquire with
  | .error e => (.error e, false)
  | .ok drv =>
    match drv.configured with
    | .error e => (.error e, false)
    | .ok _ =>
      match drv.navigation with
      | .error e => (.error e, true)
      | .ok _ => (.ok (captureArtifacts drv.requests), true)

/-! ## Analysis adapter: `short_summary` (lines 128-137) and the summary
loop of `main` (lines 203-205) -/

/-- The Ollama collaborator: prompt to completion, `Except.error` a raised
client exception. -/
def OllamaClient := String → Except String String

/-- The full prompt `short_summary` sends: instruction text with the role
interpolated, then the artifact text truncated to 12000 characters. -/
def summaryPrompt (role text : String) : String :=
  "You are a senior application security tester. Provide a ≤120‑word, " ++
  "bullet‑friendly security summary of the following " ++ role ++
  ", highlighting potential vulnerabilities." ++ "\n\n" ++ strTake text 12000

/-- `short_summary(text, role)`: the stripped completion on success, the
`"[LLM error: {e}]"` sentinel when the collaborator raises. -/
def short_summary (gen : OllamaClient) (text role : String) : String :=
  match gen (summaryPrompt role text) with
  | .ok r => r.trim
  | .error e => "[LLM error: " ++ e ++ "]"

/-- The summaries loop of `main` (lines 203-205): each artifact with no
summary yet and string content gets `short_summary(content, type)`. -/
def summarizePass (gen : OllamaClient) (arts : List FileArtifact) :
    List FileArtifact :=
  arts.map fun a =>
    match a.summary, a.content with
    | none, some (.text s) =>
      { a with summary := some (short_summary gen s a.type) }
    | _, _ => a

/-! ## The crawl click handler of `main` (lines 192-200) -/

/-- `try: arts.extend(fetch_static(...)); arts.extend(capture_api(...))
except Exception as e: st.error(...)`.  The second call only runs when the
first returned; a raised exception surfaces as the second component. -/
def crawlClick (arts : Collection)
    (fetchRes captureRes : Except String (List FileArtifact)) :
    Collection × Option String :=
  match fetchRes with
  | .error e => (arts, some e)
  | .ok l1 =>
    match captureRes with
    | .error e => (collExtend arts l1, some e)
    | .ok l2 => (collExtend (collExtend arts l1) l2, none)

/-! ## Witness fixtures -/

/-- A captured JSON exchange; observing the same URL twice makes
`capture_api` emit two artifacts with the same storage path. -/
def dupJsonRq : WireRequest :=
  ⟨"http://api/items", "GET", "hdr", none,
   some ⟨[("Content-Type", "application/json")], some []⟩⟩

/-- A captured JSON exchange used as a witness. -/
def jsonRq : WireRequest :=
  ⟨"http://a/j", "GET", "H", some "b",
   some ⟨[("Content-Type", "application/json; charset=utf-8")],
         some [123, 125]⟩⟩

/-- A captured PNG exchange used as a witness. -/
def pngRq : WireRequest :=
  ⟨"http://a/p", "GET", "H", none,
   some ⟨[("Content-Type", "image/png")], some [137]⟩⟩

/-- The unreachable-collaborator client used as a witness. -/
def downGen : OllamaClient := fun _ => .error "connection refused"

/-- A witness HTTP session serving a root page, a script and a
stylesheet. -/
def wSess : HttpClient := fun u =>
  if u = "http://h/" then .ok ⟨200, "<html>", []⟩
  else if u = "http://h/app.js" then .ok ⟨200, "var x", []⟩
  else if u = "http://h/s.css" then .ok ⟨200, "css text", []⟩
  else .error "404"

/-- A witness HTTP session whose script URL returns 404. -/
def wSessFail : HttpClient := fun u =>
  if u = "http://h/" then .ok ⟨200, "<html>", []⟩
  else if u = "http://h/app.js" then .ok ⟨404, "not found", []⟩
  else if u = "http://h/s.css" then .ok ⟨200, "css text", []⟩
  else .error "connection error"

/-- A witness parser: the root document holds one `<script src>` and one
stylesheet `<link>`. -/
def wParse : String → List Tag := fun h =>
  if h = "<html>" then
    [⟨"script", some "app.js", none, none⟩,
     ⟨"link", none, some ["stylesheet"], some "s.css"⟩]
  else []

/-! ## General lemmas -/

theorem strData_append (a b : String) : (a ++ b).data = a.data ++ b.data := rfl

theorem collExtend_append (c : Collection) (l : List FileArtifact) :
    collExtend c l = c ++ l := by
  induction l generalizing c with
  | nil => simp [collExtend]
  | cons a t ih =>
    show collExtend (collAdd c a) t = _
    rw [ih]
    simp [collAdd]

theorem sha1hex_length (msg : List Nat) : (sha1hex msg).length = 40 := by
  simp [sha1hex, String.length, hex8]

theorem takeWhile_append_stop (p : Char → Bool) (xs : List Char) (y : Char)
    (ys : List Char) (hall : ∀ x ∈ xs, p x = true) (hy : p y = false) :
    (xs ++ y :: ys).takeWhile p = xs := by
  induction xs with
  | nil => simp [List.takeWhile_cons, hy]
  | cons x xs ih =>
    have hx := hall x (by simp)
    simp only [List.cons_append, List.takeWhile_cons, hx, if_true]
    rw [ih (fun z hz => hall z (by simp [hz]))]

theorem takeWhile_split (p : Char → Bool) (l : List Char)
    (h : (l.takeWhile p).length ≠ l.length) :
    ∃ y t, l = l.takeWhile p ++ y :: t ∧ p y = false ∧
      l.drop ((l.takeWhile p).length + 1) = t := by
  induction l with
  | nil => simp at h
  | cons x xs ih =>
    by_cases hx : p x
    · simp only [List.takeWhile_cons, hx, if_true, List.length_cons] at h ⊢
      obtain ⟨y, t, h1, h2, h3⟩ := ih (by omega)
      refine ⟨y, t, ?_, h2, ?_⟩
      · rw [List.cons_append, ← h1]
      · simpa using h3
    · simp only [List.takeWhile_cons, hx, if_false]
      exact ⟨x, xs, by simp, by simpa using hx, by simp⟩

theorem splitScheme_inv (u sch rest : String)
    (h : splitScheme u = some (sch, rest)) :
    (∃ c cs, sch.data = c :: cs ∧ c.isAlpha = true) ∧
    sch.data.all isSchemeChar = true ∧
    u.data = sch.data ++ ':' :: rest.data := by
  simp only [splitScheme] at h
  split at h
  next => exact absurd h (by simp)
  next hlen =>
    split at h
    next => exact absurd h (by simp)
    next c cs hpre =>
      split at h
      next hcond =>
        simp only [Option.some.injEq, Prod.mk.injEq] at h
        obtain ⟨hsch, hrest⟩ := h
        rw [hpre] at hsch hrest
        rw [Bool.and_eq_true] at hcond
        obtain ⟨halpha, hall⟩ := hcond
        rw [hpre] at hall
        have hsch' : sch.data = c :: cs := by rw [← hsch]
        refine ⟨⟨c, cs, hsch', halpha⟩, ?_, ?_⟩
        · rw [hsch']
          exact hall
        · obtain ⟨y, t, h1, h2, h3⟩ := takeWhile_split _ _ hlen
          have hy : y = ':' := by
            by_contra hne
            simp [hne] at h2
          rw [hy] at h1
          rw [hpre] at h1 h3
          have hrest' : rest.data = t := by
            rw [← hrest]
            exact h3
          rw [hsch', hrest']
          exact h1
      next => exact absurd h (by simp)

theorem splitScheme_mk (sch t u : String)
    (h1 : ∃ c cs, sch.data = c :: cs ∧ c.isAlpha = true)
    (h2 : sch.data.all isSchemeChar = true)
    (hu : u.data = sch.data ++ ':' :: t.data) :
    splitScheme u = some (sch, t) := by
  obtain ⟨c, cs, hdata, halpha⟩ := h1
  have hnocolon : ∀ x ∈ sch.data, (x != ':') = true := by
    intro x hx
    have hsc := List.all_eq_true.mp h2 x hx
    by_cases hx' : x = ':'
    · rw [hx'] at hsc
      exact absurd hsc (by decide)
    · simp [hx']
  have hpre : u.data.takeWhile (fun c => c != ':') = sch.data := by
    rw [hu]
    exact takeWhile_append_stop _ _ _ _ hnocolon (by decide)
  have hlen : ¬ sch.data.length = u.data.length := by
    rw [hu]
    simp
  have hcond : (c.isAlpha && (c :: cs).all isSchemeChar) = true := by
    rw [Bool.and_eq_true]
    refine ⟨halpha, ?_⟩
    rw [← hdata]
    exact h2
  have hdrop : u.data.drop ((c :: cs).length + 1) = t.data := by
    have hlc : (c :: cs).length = sch.data.length := by rw [hdata]
    rw [hlc, hu]
    have h5 : sch.data ++ ':' :: t.data = (sch.data ++ [':']) ++ t.data := by
      simp
    have h6 : sch.data.length + 1 = (sch.data ++ [':']).length := by simp
    rw [h5, h6, List.drop_left]
  simp only [splitScheme, hpre]
  rw [if_neg hlen]
  rw [hdata]
  simp only [hcond, if_true]
  rw [hdrop, ← hdata]

theorem hasScheme_colon (sch t u : String)
    (h1 : ∃ c cs, sch.data = c :: cs ∧ c.isAlpha = true)
    (h2 : sch.data.all isSchemeChar = true)
    (hu : u.data = sch.data ++ ':' :: t.data) :
    hasScheme u = true := by
  rw [hasScheme, splitScheme_mk sch t u h1 h2 hu]
  rfl

theorem resolveRel_hasScheme (bsch brest ref : String)
    (h1 : ∃ c cs, bsch.data = c :: cs ∧ c.isAlpha = true)
    (h2 : bsch.data.all isSchemeChar = true) :
    hasScheme (resolveRel bsch brest ref) = true := by
  have hdd : ("://" : String).data = [':', '/', '/'] := rfl
  have hun : ∀ nl pth : String, hasScheme (urlunsplitSN bsch nl pth) = true := by
    intro nl pth
    unfold urlunsplitSN
    by_cases hnl : nl = ""
    · rw [if_pos hnl]
      exact hasScheme_colon bsch pth _ h1 h2 (by simp [strData_append])
    · rw [if_neg hnl]
      exact hasScheme_colon bsch
        ("//" ++ nl ++ (if pth = "" ∨ strStarts pth "/" then pth else "/" ++ pth))
        _ h1 h2 (by simp [strData_append, hdd])
  unfold resolveRel
  by_cases hss : strStarts ref "//" = true
  · rw [if_pos hss]
    exact hasScheme_colon bsch ref _ h1 h2 (by simp [strData_append])
  · rw [if_neg (by simpa using hss)]
    by_cases href : ref = ""
    · rw [if_pos href]
      exact hun _ _
    · rw [if_neg href]
      exact hun _ _

theorem urljoin_hasScheme (base url : String) (h : hasScheme base = true) :
    hasScheme (urljoin base url) = true := by
  rw [hasScheme] at h
  cases hb : splitScheme base with
  | none => rw [hb] at h; simp at h
  | some p =>
    obtain ⟨bsch, brest⟩ := p
    obtain ⟨hex, hall, _⟩ := splitScheme_inv base bsch brest hb
    simp only [urljoin, hb]
    by_cases hurl : url = ""
    · rw [if_pos hurl]
      rw [hasScheme, hb]
      rfl
    · rw [if_neg hurl]
      cases hu : splitScheme url with
      | some q =>
        obtain ⟨sch, rest⟩ := q
        dsimp only
        by_cases hne : sch ≠ bsch
        · rw [if_pos hne]
          rw [hasScheme, hu]
          rfl
        · rw [if_neg hne]
          exact resolveRel_hasScheme bsch brest rest hex hall
      | none =>
        dsimp only
        exact resolveRel_hasScheme bsch brest url hex hall

theorem strTake_length (s : String) (n : Nat) :
    (strTake s n).length = min n s.length := by
  show (s.data.take n).length = min n s.data.length
  exact List.length_take n s.data

end WebSec

namespace WebSec

/-! ## Claim C10: artifact identity -/

/-- C10: `FileArtifact.hash` is a deterministic, content-only function of
the artifact's stored bytes: it is the SHA-1 hex digest (40 characters) of
the file's bytes truncated to a fixed 10 characters, and two artifacts
whose stored files hold identical bytes yield identical tokens regardless
of their paths, kinds, origins or summary fields. -/
theorem c10_hash_content_only (fs1 fs2 : String → List Nat)
    (a1 a2 : FileArtifact) (h : fs1 a1.path = fs2 a2.path) :
    FileArtifact.hash fs1 a1 = strTake (sha1hex (fs1 a1.path)) 10 ∧
    (sha1hex (fs1 a1.path)).length = 40 ∧
    (FileArtifact.hash fs1 a1).length = 10 ∧
    FileArtifact.hash fs1 a1 = FileArtifact.hash fs2 a2 := by
  refine ⟨rfl, sha1hex_length _, ?_, ?_⟩
  · rw [show FileArtifact.hash fs1 a1 = strTake (sha1hex (fs1 a1.path)) 10 from
        rfl]
    rw [strTake_length, sha1hex_length]
    decide
  · simp [FileArtifact.hash, h]

/-- Witness for C10: the same bytes stored at two different paths, under
two different kinds and origins, give the same 10-character token. -/
theorem c10_witness :
    FileArtifact.hash (fun _ => [104, 105]) ⟨"p1", "js", none, none, none, none⟩ =
      strTake (sha1hex [104, 105]) 10 ∧
    (sha1hex [104, 105]).length = 40 ∧
    (FileArtifact.hash (fun _ => [104, 105])
      ⟨"p1", "js", none, none, none, none⟩).length = 10 ∧
    FileArtifact.hash (fun _ => [104, 105]) ⟨"p1", "js", none, none, none, none⟩ =
      FileArtifact.hash (fun _ => [104, 105])
        ⟨"p2", "css", some "u", some (.text "x"), none, none⟩ :=
  c10_hash_content_only _ _ _ _ rfl

/-! ## Claim C1: the collection does not reject duplicate locations -/

/-- C1 counterexample: extending the session collection with the artifacts
the traffic interceptor emits for two exchanges on the same URL leaves
`all()` holding two entries with the same location — the duplicate-location
add is appended, not rejected. -/
theorem c1_counterexample :
    ¬ ((collAll (collExtend [] (captureArtifacts [dupJsonRq, dupJsonRq]))).map
        FileArtifact.path).Nodup := by decide

/-- C1 (amended): `add` appends unconditionally.  No existing entry is
overwritten or dropped (`all()` afterwards is exactly `all()` before plus
the new artifact at the end), but a second artifact whose location
duplicates an existing one is *not* rejected, so `all()` can hold two
entries sharing a location. -/
theorem c1_add_appends (c : Collection) (a : FileArtifact) :
    collAll (collAdd c a) = collAll c ++ [a] ∧
    (collAll (collAdd c a)).length = (collAll c).length + 1 :=
  ⟨rfl, by simp [collAdd, collAll]⟩

/-! ## Claim C9: browser session release -/

/-- C9 counterexample: the session is acquired (`webdriver.Chrome`
returned), then `drv.set_page_load_timeout(40)` — which runs after
acquisition but before the `try` — raises: `capture_api` returns the error
to the caller without ever executing `drv.quit()`. -/
theorem c9_counterexample :
    (capture_api (.ok ⟨.error "setup failed", .ok (), []⟩)).2 = false ∧
    (capture_api (.ok ⟨.error "setup failed", .ok (), []⟩)).1 =
      .error "setup failed" :=
  ⟨rfl, rfl⟩

/-- C9 (amended): once the configuration call succeeds and the `try` block
is entered, `drv.quit()` runs on every exit path — normal completion and
navigation failure alike (the loop body itself cannot raise: the decode
uses `errors="replace"` under a bare `except`).  Only an exception in
`set_page_load_timeout`, between acquisition and the `try`, skips the
release. -/
theorem c9_quit_on_exit (drv : Browser) (hconf : drv.configured = .ok ()) :
    (capture_api (.ok drv)).2 = true := by
  cases hn : drv.navigation <;> simp [capture_api, hconf, hn]

/-- Witness for C9: a navigation timeout still releases the session. -/
theorem c9_witness :
    (capture_api (.ok ⟨.ok (), .error "timeout", []⟩)).2 = true :=
  c9_quit_on_exit _ rfl

/-! ## Claims C2 and C3: the static crawler -/

theorem fetch_static_ok (base : String) (sess : HttpClient)
    (parse : String → List Tag) (rootR : HResp)
    (hroot : sess (_requote base) = .ok rootR)
    (hok : badStatus rootR.status = false) :
    fetch_static base sess parse =
      .ok (rootArtifact base rootR.text ::
        ((parse rootR.text).filterMap assetOf).filterMap
          (fetchAsset sess base)) := by
  simp [fetch_static, hroot, hok]

theorem fetchAsset_ok (sess : HttpClient) (base u k : String) (r : HResp)
    (hget : sess (_requote (urljoin base u)) = .ok r)
    (hok : badStatus r.status = false)
    (hk : k = "js" ∨ k = "css" ∨ k = "html") :
    fetchAsset sess base (u, k) =
      some (textAsset (_requote (urljoin base u)) k r.text) := by
  rcases hk with hk | hk | hk <;> subst hk <;>
    simp [fetchAsset, hget, hok]

theorem fetchAsset_inv (sess : HttpClient) (base : String)
    (p : String × String) (a : FileArtifact)
    (h : fetchAsset sess base p = some a) :
    ∃ r, sess (_requote (urljoin base p.1)) = .ok r ∧
      badStatus r.status = false ∧
      a.url = some (_requote (urljoin base p.1)) := by
  simp only [fetchAsset] at h
  split at h
  next => exact absurd h (by simp)
  next r hs =>
    split at h
    next hb => exact absurd h (by simp)
    next hb =>
      split at h
      next hk =>
        refine ⟨r, hs, by simpa using hb, ?_⟩
        rw [← Option.some.inj h]
        rfl
      next hk =>
        refine ⟨r, hs, by simpa using hb, ?_⟩
        rw [← Option.some.inj h]

/-- C2: when the root document parses to exactly one `<script src>` and
one `<link rel=stylesheet href>` reference, and the root GET and both
sub-asset GETs succeed, `crawl_static` returns exactly 3 artifacts: the
root artifact first with kind `html`, plus one `js` and one `css`
artifact whose origins are the references resolved against the base to
absolute URLs (and normalized). -/
theorem c2_crawl_three_artifacts (base su cu : String) (sess : HttpClient)
    (parse : String → List Tag) (rootR jsR cssR : HResp)
    (hroot : sess (_requote base) = .ok rootR)
    (hrootOk : badStatus rootR.status = false)
    (hassets : (parse rootR.text).filterMap assetOf =
        [(su, "js"), (cu, "css")] ∨
      (parse rootR.text).filterMap assetOf = [(cu, "css"), (su, "js")])
    (hjs : sess (_requote (urljoin base su)) = .ok jsR)
    (hjsOk : badStatus jsR.status = false)
    (hcss : sess (_requote (urljoin base cu)) = .ok cssR)
    (hcssOk : badStatus cssR.status = false) :
    ∃ l, fetch_static base sess parse = .ok l ∧
      l.length = 3 ∧
      l.head? = some (rootArtifact base rootR.text) ∧
      (rootArtifact base rootR.text).type = "html" ∧
      (l = [rootArtifact base rootR.text,
            textAsset (_requote (urljoin base su)) "js" jsR.text,
            textAsset (_requote (urljoin base cu)) "css" cssR.text] ∨
       l = [rootArtifact base rootR.text,
            textAsset (_requote (urljoin base cu)) "css" cssR.text,
            textAsset (_requote (urljoin base su)) "js" jsR.text]) ∧
      (hasScheme base = true → hasScheme (urljoin base su) = true ∧
        hasScheme (urljoin base cu) = true) := by
  have hja := fetchAsset_ok sess base su "js" jsR hjs hjsOk (Or.inl rfl)
  have hca := fetchAsset_ok sess base cu "css" cssR hcss hcssOk
    (Or.inr (Or.inl rfl))
  have hfs := fetch_static_ok base sess parse rootR hroot hrootOk
  rcases hassets with ha | ha
  · rw [ha] at hfs
    simp only [List.filterMap_cons, List.filterMap_nil, hja, hca] at hfs
    exact ⟨_, hfs, rfl, rfl, rfl, Or.inl rfl,
      fun hb => ⟨urljoin_hasScheme base su hb, urljoin_hasScheme base cu hb⟩⟩
  · rw [ha] at hfs
    simp only [List.filterMap_cons, List.filterMap_nil, hja, hca] at hfs
    exact ⟨_, hfs, rfl, rfl, rfl, Or.inr rfl,
      fun hb => ⟨urljoin_hasScheme base su hb, urljoin_hasScheme base cu hb⟩⟩

/-- Witness for C2: a concrete page with one script and one stylesheet,
all fetches succeeding. -/
theorem c2_witness :
    ∃ l, fetch_static "http://h/" wSess wParse = .ok l ∧
      l.length = 3 ∧
      l.head? = some (rootArtifact "http://h/" "<html>") ∧
      (rootArtifact "http://h/" "<html>").type = "html" ∧
      (l = [rootArtifact "http://h/" "<html>",
            textAsset (_requote (urljoin "http://h/" "app.js")) "js" "var x",
            textAsset (_requote (urljoin "http://h/" "s.css")) "css"
              "css text"] ∨
       l = [rootArtifact "http://h/" "<html>",
            textAsset (_requote (urljoin "http://h/" "s.css")) "css"
              "css text",
            textAsset (_requote (urljoin "http://h/" "app.js")) "js"
              "var x"]) ∧
      (hasScheme "http://h/" = true →
        hasScheme (urljoin "http://h/" "app.js") = true ∧
        hasScheme (urljoin "http://h/" "s.css") = true) :=
  c2_crawl_three_artifacts "http://h/" "app.js" "s.css" wSess wParse
    ⟨200, "<html>", []⟩ ⟨200, "var x", []⟩ ⟨200, "css text", []⟩
    rfl rfl (Or.inl rfl) rfl rfl rfl rfl

/-- C3: when the root fetch succeeds but the fetch of a referenced
sub-asset fails (a raised exception or a 4xx/5xx status), `crawl_static`
does not raise: it returns the root artifact first, every returned
non-root artifact corresponds to a successfully fetched reference, every
successfully fetched reference's artifact is in the returned list, and no
artifact (partial, empty or otherwise) carries the failed reference's
resolved URL as origin. -/
theorem c3_asset_failure_skipped (base uf kf : String) (sess : HttpClient)
    (parse : String → List Tag) (rootR : HResp)
    (hroot : sess (_requote base) = .ok rootR)
    (hrootOk : badStatus rootR.status = false)
    (hmem : (uf, kf) ∈ (parse rootR.text).filterMap assetOf)
    (hfail : (∃ e, sess (_requote (urljoin base uf)) = .error e) ∨
      (∃ r, sess (_requote (urljoin base uf)) = .ok r ∧
        badStatus r.status = true)) :
    ∃ l, fetch_static base sess parse = .ok l ∧
      l.head? = some (rootArtifact base rootR.text) ∧
      l.tail = ((parse rootR.text).filterMap assetOf).filterMap
        (fetchAsset sess base) ∧
      (∀ p ∈ (parse rootR.text).filterMap assetOf,
        ∀ a, fetchAsset sess base p = some a → a ∈ l) ∧
      (∀ a ∈ l.tail, ∃ u r, a.url = some (_requote (urljoin base u)) ∧
        sess (_requote (urljoin base u)) = .ok r ∧
        badStatus r.status = false) ∧
      (∀ a ∈ l.tail, a.url ≠ some (_requote (urljoin base uf))) := by
  have hfs := fetch_static_ok base sess parse rootR hroot hrootOk
  refine ⟨_, hfs, rfl, rfl, ?_, ?_, ?_⟩
  · intro p hp a ha
    exact List.mem_cons_of_mem _ (List.mem_filterMap.mpr ⟨p, hp, ha⟩)
  · intro a ha
    obtain ⟨p, _, hpa⟩ := List.mem_filterMap.mp ha
    obtain ⟨r, hs, hb, hurl⟩ := fetchAsset_inv sess base p a hpa
    exact ⟨p.1, r, hurl, hs, hb⟩
  · intro a ha heq
    obtain ⟨p, _, hpa⟩ := List.mem_filterMap.mp ha
    obtain ⟨r, hs, hb, hurl⟩ := fetchAsset_inv sess base p a hpa
    rw [hurl] at heq
    have hfx : _requote (urljoin base p.1) = _requote (urljoin base uf) :=
      Option.some.inj heq
    rw [hfx] at hs
    rcases hfail with ⟨e, he⟩ | ⟨r2, hr2, hbad⟩
    · rw [he] at hs
      exact absurd hs (by simp)
    · rw [hr2] at hs
      have hrr : r2 = r := by injection hs
      rw [hrr] at hbad
      rw [hbad] at hb
      simp at hb

/-- Witness for C3: the script reference returns 404; the crawl still
returns the root and the stylesheet, and nothing for the script. -/
theorem c3_witness :
    ∃ l, fetch_static "http://h/" wSessFail wParse = .ok l ∧
      l.head? = some (rootArtifact "http://h/" "<html>") ∧
      l.tail = ((wParse "<html>").filterMap assetOf).filterMap
        (fetchAsset wSessFail "http://h/") ∧
      (∀ p ∈ (wParse "<html>").filterMap assetOf,
        ∀ a, fetchAsset wSessFail "http://h/" p = some a → a ∈ l) ∧
      (∀ a ∈ l.tail, ∃ u r,
        a.url = some (_requote (urljoin "http://h/" u)) ∧
        wSessFail (_requote (urljoin "http://h/" u)) = .ok r ∧
        badStatus r.status = false) ∧
      (∀ a ∈ l.tail,
        a.url ≠ some (_requote (urljoin "http://h/" "app.js"))) :=
  c3_asset_failure_skipped "http://h/" "app.js" "js" wSessFail wParse
    ⟨200, "<html>", []⟩ rfl rfl (by decide)
    (Or.inr ⟨⟨404, "not found", []⟩, rfl, rfl⟩)

/-! ## Claims C5 and C6: the URL normalizer

The idempotence analysis of `requote_uri`.  On a `%`-free input the first
pass is pure quoting, whose output re-unquotes to itself (every escape it
emits encodes a non-unreserved byte) and re-quotes to itself (every
character it emits is safe), so normalization is idempotent there.  With
`%` present idempotence fails (see the counterexample). -/

theorem splitChar_ne_nil (sep : Char) (l : List Char) :
    splitChar sep l ≠ [] := by
  cases l with
  | nil => simp [splitChar]
  | cons c rest =>
    simp only [splitChar]
    cases h : splitChar sep rest with
    | nil => simp
    | cons p ps => by_cases hc : c = sep <;> simp [hc]

theorem splitPercent_no_pct (l : List Char) (h : '%' ∉ l) :
    splitPercent l = [l] := by
  induction l with
  | nil => rfl
  | cons c rest ih =>
    have hc : c ≠ '%' := fun hx => h (hx ▸ List.mem_cons_self c rest)
    have hrest : '%' ∉ rest := fun hx => h (List.mem_cons_of_mem c hx)
    show splitChar '%' (c :: rest) = [c :: rest]
    simp only [splitChar]
    rw [show splitChar '%' rest = [rest] from ih hrest]
    simp [hc]

theorem unquote_no_pct (l : List Char) (h : '%' ∉ l) :
    unquoteUnreserved l = .ok l := by
  simp [unquoteUnreserved, splitPercent_no_pct l h, mapParts]

theorem splitPercent_head (l : List Char) :
    ∃ p0 ps, splitPercent l = p0 :: ps := by
  cases hx : splitPercent l with
  | nil => exact absurd hx (splitChar_ne_nil '%' l)
  | cons a b => exact ⟨a, b, rfl⟩

theorem splitPercent_cons_ne (c : Char) (l : List Char) (hc : c ≠ '%')
    (p0 : List Char) (ps : List (List Char))
    (hsp : splitPercent l = p0 :: ps) :
    splitPercent (c :: l) = (c :: p0) :: ps := by
  show splitChar '%' (c :: l) = _
  simp only [splitChar]
  rw [show splitChar '%' l = p0 :: ps from hsp]
  simp [hc]

theorem splitPercent_cons_pct (l : List Char)
    (p0 : List Char) (ps : List (List Char))
    (hsp : splitPercent l = p0 :: ps) :
    splitPercent ('%' :: l) = [] :: p0 :: ps := by
  show splitChar '%' ('%' :: l) = _
  simp only [splitChar]
  rw [show splitChar '%' l = p0 :: ps from hsp]
  simp

theorem unquote_cons (c : Char) (l : List Char) (hc : c ≠ '%')
    (h : unquoteUnreserved l = .ok l) :
    unquoteUnreserved (c :: l) = .ok (c :: l) := by
  obtain ⟨p0, ps, hsp⟩ := splitPercent_head l
  have hsc := splitPercent_cons_ne c l hc p0 ps hsp
  simp only [unquoteUnreserved, hsp] at h
  cases hm : mapParts ps with
  | error e =>
    simp only [hm] at h
    exact absurd h (by simp)
  | ok qs =>
    simp only [hm, Except.ok.injEq] at h
    simp only [unquoteUnreserved, hsc, hm, List.cons_append, h]

theorem unquote_pct_block (d1 d2 : Char) (l : List Char)
    (ha1 : isAlnumA d1 = true) (ha2 : isAlnumA d2 = true)
    (hx1 : isHexDig d1 = true) (hx2 : isHexDig d2 = true)
    (hnu : isUnres (Char.ofNat (hexVal d1 * 16 + hexVal d2)) = false)
    (hp1 : d1 ≠ '%') (hp2 : d2 ≠ '%')
    (h : unquoteUnreserved l = .ok l) :
    unquoteUnreserved ('%' :: d1 :: d2 :: l) =
      .ok ('%' :: d1 :: d2 :: l) := by
  obtain ⟨p0, ps, hsp⟩ := splitPercent_head l
  have hs2 := splitPercent_cons_ne d2 l hp2 p0 ps hsp
  have hs1 := splitPercent_cons_ne d1 (d2 :: l) hp1 (d2 :: p0) ps hs2
  have hs0 := splitPercent_cons_pct (d1 :: d2 :: l) (d1 :: d2 :: p0) ps hs1
  simp only [unquoteUnreserved, hsp] at h
  cases hm : mapParts ps with
  | error e =>
    simp only [hm] at h
    exact absurd h (by simp)
  | ok qs =>
    simp only [hm, Except.ok.injEq] at h
    have hpp : processPart (d1 :: d2 :: p0) = .ok ('%' :: d1 :: d2 :: p0) := by
      simp [processPart, ha1, ha2, hx1, hx2, hnu]
    simp only [unquoteUnreserved, hs0, mapParts, hpp, hm]
    simp [h]

theorem isUnres_hi : ∀ b, b < 256 → 128 ≤ b →
    isUnres (Char.ofNat b) = false := by decide

theorem hexUpper_props : ∀ n, n < 16 →
    isAlnumA (hexUpper n) = true ∧ isHexDig (hexUpper n) = true ∧
    hexUpper n ≠ '%' ∧ isUnres (hexUpper n) = true ∧
    hexVal (hexUpper n) = n := by decide

theorem char_toNat_lt (c : Char) : c.toNat < 0x110000 := by
  rcases c.valid with h | ⟨h1, h2⟩
  · exact Nat.lt_trans h (by decide)
  · exact h2

theorem utf8Bytes_bounds (c : Char) : ∀ b ∈ utf8Bytes c, b < 256 := by
  have hv := char_toNat_lt c
  intro b hb
  simp only [utf8Bytes] at hb
  split at hb <;> [skip; split at hb] <;> [skip; skip; split at hb] <;>
    simp at hb <;> omega

theorem utf8Bytes_hi (c : Char) (h : 128 ≤ c.toNat) :
    ∀ b ∈ utf8Bytes c, 128 ≤ b := by
  intro b hb
  simp only [utf8Bytes] at hb
  split at hb <;> [skip; split at hb] <;> [skip; skip; split at hb] <;>
    simp at hb <;> omega

theorem encodedChar_bytes (c : Char)
    (h : quoteKeeps safeWithPercent c = false) :
    ∀ b ∈ utf8Bytes c, b < 256 ∧ isUnres (Char.ofNat b) = false := by
  intro b hb
  refine ⟨utf8Bytes_bounds c b hb, ?_⟩
  by_cases hv : c.toNat < 128
  · have hx : utf8Bytes c = [c.toNat] := by simp [utf8Bytes, hv]
    rw [hx] at hb
    simp at hb
    subst hb
    rw [Char.ofNat_toNat]
    simp only [quoteKeeps, Bool.or_eq_false_iff] at h
    exact h.1
  · exact isUnres_hi b (utf8Bytes_bounds c b hb)
      (utf8Bytes_hi c (by omega) b hb)

theorem unquote_pct_blocks (bs : List Nat) (l : List Char)
    (hb : ∀ b ∈ bs, b < 256 ∧ isUnres (Char.ofNat b) = false)
    (h : unquoteUnreserved l = .ok l) :
    unquoteUnreserved (bs.flatMap pctEncodeByte ++ l) =
      .ok (bs.flatMap pctEncodeByte ++ l) := by
  induction bs with
  | nil => simpa using h
  | cons b bs ih =>
    have hb1 := hb b (by simp)
    have hrec := ih (fun x hx => hb x (by simp [hx]))
    have hd1 := hexUpper_props (b / 16) (by omega)
    have hd2 := hexUpper_props (b % 16) (by omega)
    have hdec : hexVal (hexUpper (b / 16)) * 16 +
        hexVal (hexUpper (b % 16)) = b := by
      rw [hd1.2.2.2.2, hd2.2.2.2.2]
      omega
    have hblock := unquote_pct_block (hexUpper (b / 16)) (hexUpper (b % 16))
      (bs.flatMap pctEncodeByte ++ l) hd1.1 hd2.1 hd1.2.1 hd2.2.1
      (by rw [hdec]; exact hb1.2) hd1.2.2.1 hd2.2.2.1 hrec
    simpa [pctEncodeByte] using hblock

theorem quote_output_keeps (s : List Char) :
    ∀ c ∈ pyQuote safeWithPercent s, quoteKeeps safeWithPercent c = true := by
  intro x hx
  simp only [pyQuote, List.mem_flatMap] at hx
  obtain ⟨c, hcs, hcc⟩ := hx
  by_cases hk : quoteKeeps safeWithPercent c = true
  · rw [quoteChar, if_pos hk] at hcc
    simp at hcc
    subst hcc
    exact hk
  · rw [quoteChar, if_neg hk] at hcc
    simp only [List.mem_flatMap] at hcc
    obtain ⟨b, hbs, hbc⟩ := hcc
    have hblt := utf8Bytes_bounds c b hbs
    simp only [pctEncodeByte, List.mem_cons, List.not_mem_nil, or_false]
      at hbc
    rcases hbc with hbc | hbc | hbc <;> subst hbc
    · decide
    · have := hexUpper_props (b / 16) (by omega)
      simp [quoteKeeps, this.2.2.2.1]
    · have := hexUpper_props (b % 16) (by omega)
      simp [quoteKeeps, this.2.2.2.1]

theorem quote_fixpoint (safe : List Char) (s : List Char)
    (h : ∀ c ∈ s, quoteKeeps safe c = true) : pyQuote safe s = s := by
  induction s with
  | nil => rfl
  | cons c cs ih =>
    have hc := h c (by simp)
    show quoteChar safe c ++ pyQuote safe cs = c :: cs
    rw [quoteChar, if_pos hc, ih (fun x hx => h x (by simp [hx]))]
    rfl

theorem unquote_quote (s : List Char) (hs : '%' ∉ s) :
    unquoteUnreserved (pyQuote safeWithPercent s) =
      .ok (pyQuote safeWithPercent s) := by
  induction s with
  | nil => rfl
  | cons c cs ih =>
    have hc : c ≠ '%' := fun hx => hs (hx ▸ List.mem_cons_self c cs)
    have hcs : '%' ∉ cs := fun hx => hs (List.mem_cons_of_mem c hx)
    show unquoteUnreserved (quoteChar safeWithPercent c ++
        pyQuote safeWithPercent cs) =
      .ok (quoteChar safeWithPercent c ++ pyQuote safeWithPercent cs)
    by_cases hk : quoteKeeps safeWithPercent c = true
    · rw [quoteChar, if_pos hk]
      simp only [List.singleton_append]
      exact unquote_cons c _ hc (ih hcs)
    · rw [quoteChar, if_neg hk]
      exact unquote_pct_blocks (utf8Bytes c) _
        (encodedChar_bytes c (by simpa using hk)) (ih hcs)

theorem requote_no_pct (u : List Char) (h : '%' ∉ u) :
    requoteUri u = pyQuote safeWithPercent u := by
  simp only [requoteUri, unquote_no_pct u h]

/-- C5 (amended): `normalize` (`requote_uri`) is idempotent on every input
containing no `%` character — in particular on any unescaped URL with
non-ASCII characters such as a Unicode non-breaking hyphen.  It is *not*
idempotent in general: an input containing `%` can lose an escape on the
second pass (see the counterexample). -/
theorem c5_normalize_idempotent_percent_free (s : String)
    (h : '%' ∉ s.data) :
    _requote (_requote s) = _requote s := by
  show (⟨requoteUri (⟨requoteUri s.data⟩ : String).data⟩ : String) =
    ⟨requoteUri s.data⟩
  refine congrArg String.mk ?_
  show requoteUri (requoteUri s.data) = requoteUri s.data
  rw [requote_no_pct s.data h]
  simp only [requoteUri, unquote_quote s.data h]
  exact quote_fixpoint _ _ (quote_output_keeps s.data)

/-- C5 counterexample: `normalize` is not idempotent on every input.  On
`"%4%41"` the first pass un-escapes `%41` to `A`, producing `"%4A"`; the
second pass then reads `%4A` as an escape of the unreserved `J` and
un-escapes it, so `normalize (normalize u) ≠ normalize u`. -/
theorem c5_counterexample :
    _requote "%4%41" = "%4A" ∧ _requote "%4A" = "J" ∧
    _requote (_requote "%4%41") ≠ _requote "%4%41" :=
  ⟨by decide, by decide, by decide⟩

/-- Witness for C5: a URL with a Unicode non-breaking hyphen (U+2011) and
no `%` normalizes idempotently. -/
theorem c5_witness :
    '%' ∉ "http://itsecgames.com/a‑b".data ∧
    _requote (_requote "http://itsecgames.com/a‑b") =
      _requote "http://itsecgames.com/a‑b" :=
  ⟨by decide, c5_normalize_idempotent_percent_free _ (by decide)⟩

theorem pct_mem_of_error (u : List Char)
    (h : ∃ e, unquoteUnreserved u = .error e) : '%' ∈ u := by
  by_contra hn
  obtain ⟨e, he⟩ := h
  rw [unquote_no_pct u hn] at he
  exact absurd he (by simp)

theorem quoteChar_length_pos (safe : List Char) (c : Char) :
    1 ≤ (quoteChar safe c).length := by
  rw [quoteChar]
  split
  · simp
  · simp only [utf8Bytes]
    split_ifs <;> simp [pctEncodeByte]

theorem quote_le_length (safe : List Char) (u : List Char) :
    u.length ≤ (pyQuote safe u).length := by
  induction u with
  | nil => simp [pyQuote]
  | cons c cs ih =>
    simp only [List.length_cons,
      show pyQuote safe (c :: cs) =
        quoteChar safe c ++ pyQuote safe cs from rfl, List.length_append]
    have := quoteChar_length_pos safe c
    omega

theorem quote_pct_longer (u : List Char) (h : '%' ∈ u) :
    u.length < (pyQuote safeWithoutPercent u).length := by
  induction u with
  | nil => simp at h
  | cons c cs ih =>
    simp only [List.length_cons,
      show pyQuote safeWithoutPercent (c :: cs) =
        quoteChar safeWithoutPercent c ++ pyQuote safeWithoutPercent cs
        from rfl, List.length_append]
    by_cases hc : c = '%'
    · subst hc
      have h3 : (quoteChar safeWithoutPercent '%').length = 3 := by decide
      have := quote_le_length safeWithoutPercent cs
      omega
    · have hmem : '%' ∈ cs := by
        rcases List.mem_cons.mp h with hx | hx
        · exact absurd hx.symm hc
        · exact hx
      have := ih hmem
      have := quoteChar_length_pos safeWithoutPercent c
      omega

/-- C6 (amended): `normalize` never raises — the only internal failure
(`InvalidURL` from an invalid percent-escape) is caught and answered with
the fallback quoting — but a malformed input is *not* returned unchanged:
the fallback quotes the raw input with `%` unsafe, so every `%` is
re-escaped and the result always differs from the input. -/
theorem c6_malformed_requoted (s : String)
    (h : ∃ e, unquoteUnreserved s.data = .error e) :
    _requote s = ⟨pyQuote safeWithoutPercent s.data⟩ ∧ _requote s ≠ s := by
  obtain ⟨e, he⟩ := h
  have h1 : requoteUri s.data = pyQuote safeWithoutPercent s.data := by
    simp only [requoteUri, he]
  refine ⟨congrArg String.mk h1, ?_⟩
  intro heq
  have hpc := pct_mem_of_error s.data ⟨e, he⟩
  have hlt := quote_pct_longer s.data hpc
  have hdata : (_requote s).data = s.data := congrArg String.data heq
  have hx : (_requote s).data = requoteUri s.data := rfl
  rw [hx, h1] at hdata
  rw [hdata] at hlt
  omega

/-- C6 counterexample: the malformed input `"%zz"` (its escape is
alphanumeric but not hexadecimal, so `unquote_unreserved` raises
`InvalidURL`) is not passed through unchanged: the fallback path returns
`"%25zz"`. -/
theorem c6_counterexample :
    unquoteUnreserved "%zz".data = .error ['z', 'z'] ∧
    _requote "%zz" = "%25zz" ∧ _requote "%zz" ≠ "%zz" :=
  ⟨rfl, by decide, by decide⟩

/-- Witness for C6: the malformed `"%zz"` is answered by the fallback
quoting and differs from the input. -/
theorem c6_witness :
    _requote "%zz" = ⟨pyQuote safeWithoutPercent "%zz".data⟩ ∧
    _requote "%zz" ≠ "%zz" :=
  c6_malformed_requoted "%zz" ⟨['z', 'z'], rfl⟩

/-! ## Claim C4: content-type filtering of captured exchanges -/

/-- C4: for every observed exchange with a response present, if the
declared content-type contains one of `application/json`, `text/plain`,
`application/xml` then exactly two artifacts are emitted for that exchange
— one `api_request` and one `api_response`, both carrying the exchange URL
as origin; if the content-type matches none of them (e.g. `image/png`),
zero artifacts are emitted. -/
theorem c4_capture_content_filter (rq : WireRequest) (resp : WireResponse)
    (hresp : rq.response = some resp) :
    (ctAccepted (headerGet resp.headers "Content-Type" "") = true →
      perRequest rq =
        [⟨reqPath rq.url, "api_request", some rq.url,
          some (.text (reqDump rq)), none, none⟩,
         ⟨resPath rq.url, "api_response", some rq.url,
          some (.text (respBody resp)), none, none⟩]) ∧
    (ctAccepted (headerGet resp.headers "Content-Type" "") = false →
      perRequest rq = []) := by
  constructor <;> intro hct <;> simp [perRequest, hresp, hct]

/-- Witness for C4: a JSON exchange yields the request/response artifact
pair sharing the exchange URL; a PNG exchange yields nothing. -/
theorem c4_witness :
    perRequest jsonRq =
      [⟨reqPath "http://a/j", "api_request", some "http://a/j",
        some (.text (reqDump jsonRq)), none, none⟩,
       ⟨resPath "http://a/j", "api_response", some "http://a/j",
        some (.text (respBody
          ⟨[("Content-Type", "application/json; charset=utf-8")],
           some [123, 125]⟩)), none, none⟩] ∧
    perRequest pngRq = [] :=
  ⟨(c4_capture_content_filter jsonRq _ rfl).1 (by decide),
   (c4_capture_content_filter pngRq _ rfl).2 (by decide)⟩

/-! ## Claim C7: collaborator failure yields a stored sentinel -/

theorem sentinel_ne_empty (e : String) : "[LLM error: " ++ e ++ "]" ≠ "" := by
  intro hc
  have h2 := congrArg String.length hc
  rw [String.length_append, String.length_append] at h2
  have h3 : String.length "]" = 1 := rfl
  have h4 : String.length "" = 0 := rfl
  rw [h3, h4] at h2
  omega

/-- C7: when the Ollama call raises, `short_summary` does not raise but
returns the non-empty `[LLM error: ...]` sentinel, and the summaries loop
of `main` then stores exactly that sentinel text in the artifact's
`summary` field instead of leaving it `None`. -/
theorem c7_sentinel_summary (gen : OllamaClient) (a : FileArtifact)
    (t e : String) (hsum : a.summary = none)
    (hcont : a.content = some (.text t))
    (hgen : gen (summaryPrompt a.type t) = .error e) :
    short_summary gen t a.type = "[LLM error: " ++ e ++ "]" ∧
    short_summary gen t a.type ≠ "" ∧
    summarizePass gen [a] =
      [{ a with summary := some ("[LLM error: " ++ e ++ "]") }] := by
  have h1 : short_summary gen t a.type = "[LLM error: " ++ e ++ "]" := by
    simp [short_summary, hgen]
  refine ⟨h1, ?_, ?_⟩
  · rw [h1]
    exact sentinel_ne_empty e
  · simp [summarizePass, hsum, hcont, h1]

/-- Witness for C7: an artifact with text content and no summary gets the
literal sentinel stored after the summaries loop. -/
theorem c7_witness :
    short_summary downGen "var x = 1" "js" =
      "[LLM error: connection refused]" ∧
    short_summary downGen "var x = 1" "js" ≠ "" ∧
    summarizePass downGen
      [⟨"u.js", "js", none, some (.text "var x = 1"), none, none⟩] =
      [⟨"u.js", "js", none, some (.text "var x = 1"),
        some "[LLM error: connection refused]", none⟩] :=
  c7_sentinel_summary downGen
    ⟨"u.js", "js", none, some (.text "var x = 1"), none, none⟩
    "var x = 1" "connection refused" rfl rfl rfl

/-! ## Claim C8: fatal failures leave the collection as before the call -/

/-- C8: for every fatal-to-call failure — root GET raising, root status
400-599, browser session unobtainable, or navigation failing after the
session was configured — the crawl click surfaces an error and the
collection afterwards is exactly what it was before the failing call: the
pre-click collection when `fetch_static` failed, the pre-click collection
plus `fetch_static`'s artifacts when `capture_api` failed; no artifact
produced by the aborted call is present. -/
theorem c8_fatal_aborts_cleanly (arts : Collection) (base : String)
    (sess : HttpClient) (parse : String → List Tag)
    (acquire : Except String Browser)
    (hfatal :
      (∃ e, sess (_requote base) = .error e) ∨
      (∃ r, sess (_requote base) = .ok r ∧ badStatus r.status = true) ∨
      (∃ e, acquire = .error e) ∨
      (∃ drv e, acquire = .ok drv ∧ drv.configured = .ok () ∧
        drv.navigation = .error e)) :
    ((crawlClick arts (fetch_static base sess parse)
        ((capture_api acquire).1)).2).isSome = true ∧
    (crawlClick arts (fetch_static base sess parse)
        ((capture_api acquire).1)).1 =
      (match fetch_static base sess parse with
       | .error _ => collAll arts
       | .ok l1 => collAll arts ++ l1) := by
  rcases hfatal with ⟨e, he⟩ | ⟨r, hr, hbad⟩ | ⟨e, he⟩ | ⟨drv, e, hacq, hconf, hnav⟩
  · have hf : fetch_static base sess parse = .error e := by
      simp [fetch_static, he]
    simp [hf, crawlClick, collAll]
  · have hf : fetch_static base sess parse = .error "HTTPError" := by
      simp [fetch_static, hr, hbad]
    simp [hf, crawlClick, collAll]
  · have hc : (capture_api acquire).1 = .error e := by simp [capture_api, he]
    cases hf : fetch_static base sess parse with
    | error e1 => simp [hf, crawlClick, collAll]
    | ok l1 => simp [hf, crawlClick, hc, collAll, collExtend_append]
  · have hc : (capture_api acquire).1 = .error e := by
      simp [capture_api, hacq, hconf, hnav]
    cases hf : fetch_static base sess parse with
    | error e1 => simp [hf, crawlClick, collAll]
    | ok l1 => simp [hf, crawlClick, hc, collAll, collExtend_append]

/-- Witness for C8: an unreachable root (the session raising on every GET)
aborts the click and leaves the empty pre-click collection empty. -/
theorem c8_witness :
    ((crawlClick [] (fetch_static "http://h" (fun _ => .error "refused")
        (fun _ => [])) ((capture_api (.error "no chrome")).1)).2).isSome
      = true ∧
    (crawlClick [] (fetch_static "http://h" (fun _ => .error "refused")
        (fun _ => [])) ((capture_api (.error "no chrome")).1)).1 =
      (match fetch_static "http://h" (fun _ => .error "refused")
          (fun _ => ([] : List Tag)) with
       | .error _ => collAll []
       | .ok l1 => collAll [] ++ l1) :=
  c8_fatal_aborts_cleanly [] "http://h" (fun _ => .error "refused")
    (fun _ => []) (.error "no chrome") (Or.inl ⟨"refused", rfl⟩)

end WebSec

namespace WebSec

/-! ## Model validation against known values -/

/-- SHA-1 test vector, validating the hash model against
`hashlib.sha1(b"abc").hexdigest()`. -/
theorem sha1_vector_abc :
    sha1hexOfString "abc" = "a9993e364706816aba3e25717850c26c9cd0d89d" := by
  rfl

/-- SHA-1 test vector for the empty message. -/
theorem sha1_vector_empty :
    sha1hexOfString "" = "da39a3ee5e6b4b0d3255bfef95601890afd80709" := by
  rfl

/-- `requote_uri` percent-encodes a space, as `requests` does. -/
theorem requote_space :
    _requote "http://x.com/a b" = "http://x.com/a%20b" := by decide

/-- `urljoin` resolves a relative script reference like CPython. -/
theorem urljoin_relative :
    urljoin "http://h/dir/page.html" "app.js" = "http://h/dir/app.js" := by
  decide

/-- `urljoin` resolves dot segments like CPython. -/
theorem urljoin_dots : urljoin "http://h/a/b/" "../c" = "http://h/a/c" := by
  decide

/-- `urljoin` keeps an absolute reference like CPython. -/
theorem urljoin_absolute_ref :
    urljoin "http://h/a" "https://x/y" = "https://x/y" := by decide

end WebSec
